import Mathlib

/-!
# Time_Tracker: formal model of the timer / session-recording core

A shallow embedding of the study-timer application's core logic:

* `Session`, `TimerState` follow `src/types/index.ts` (opaque string ids are
  modelled as naturals; ISO timestamps as epoch milliseconds, with the
  standard modelling assumption that the wall clock never runs backwards
  during a run, so all times are naturals and elapsed times are nonnegative).
* The `TimerScreen` component (`src/screens/TimerScreen.tsx`) is modelled as
  an explicit event-step machine `step` on an `AppModel` carrying the
  transient `TimerState`, the persisted session list, and the completion
  modal / mount flags.  Each branch of `step` is a direct transcription of
  the corresponding handler (the tick `setInterval` body, the
  `AppState` foreground listener, `handleResume`, `handlePause`,
  `handleReset`, `handleTerminate`, the modal `onRequestClose`, and the
  unmount cleanup, which only clears the interval).
* `addSession` / `removeCourse` follow `src/hooks/useStorage.tsx`, with the
  `AsyncStorage` write modelled by an explicit success flag (`writeOk`) and
  a thrown exception modelled by a `false` result.
* `calculateStreak` follows `src/unnamed/part_002` (`lib/utils.ts`), with a
  calendar date (the `startAt.split('T')[0]` value) modelled as an integer
  day index, so that `setDate(getDate() - i)` is integer subtraction.
-/

namespace TimeTracker

/-- `Session` from `src/types/index.ts`: an immutable persisted record of one
timer run.  `id` and `courseId` are opaque strings in the source, modelled as
naturals; `startAt` (an ISO string produced by `isoNow()`) is modelled as the
epoch-millisecond instant at which the record was persisted. -/
structure Session where
  id : ℕ
  courseId : ℕ
  startAt : ℕ
  durationSeconds : ℕ
  targetSeconds : ℕ
  isPartial : Bool
deriving Repr, DecidableEq

/-- `TimerState` from `src/types/index.ts`: the transient in-memory state of
the one active countdown. -/
structure TimerState where
  isRunning : Bool
  remainingSeconds : ℕ
  elapsedSeconds : ℕ
  targetSeconds : ℕ
  startTime : Option ℕ
deriving Repr, DecidableEq

/-- The route params of `TimerScreen` (`courseId`, `durationMinutes`). -/
structure Cfg where
  courseId : ℕ
  durationMinutes : ℕ
deriving Repr, DecidableEq

/-- `minutesToSeconds` from `lib/utils.ts`. -/
def minutesToSeconds (minutes : ℕ) : ℕ := minutes * 60

/-- `Math.floor((now - startTime) / 1000)` — the elapsed-seconds computation
used by the tick body and the foreground reconciliation
(`src/screens/TimerScreen.tsx` lines 88 and 130).  On naturals, truncated
subtraction plus division is exactly the JS expression whenever
`startTime ≤ now` (the monotone-clock assumption). -/
def elapsedAt (startTime now : ℕ) : ℕ := (now - startTime) / 1000

/-- `Math.max(0, targetSeconds - elapsed)` (lines 89 and 131): on naturals,
truncated subtraction is exactly `max 0` of the integer difference. -/
def remainingAt (target startTime now : ℕ) : ℕ := target - elapsedAt startTime now

/-- The full in-memory state of one `TimerScreen` visit: the timer, the
persisted session collection (the `useStorage` sessions list), a counter
standing in for `uid('s_')`, the `showCompletionModal` flag, and whether the
screen is still mounted. -/
structure AppModel where
  timer : TimerState
  sessions : List Session
  nextId : ℕ
  showCompletionModal : Bool
  mounted : Bool
deriving Repr, DecidableEq

/-- The initial state of `TimerScreen` (lines 60–66): the timer starts
automatically, with `startTime = Date.now()` (`t0`). -/
def initModel (cfg : Cfg) (t0 : ℕ) : AppModel :=
  { timer :=
      { isRunning := true
        remainingSeconds := minutesToSeconds cfg.durationMinutes
        elapsedSeconds := 0
        targetSeconds := minutesToSeconds cfg.durationMinutes
        startTime := some t0 }
    sessions := []
    nextId := 0
    showCompletionModal := false
    mounted := true }

/-- The events a `TimerScreen` visit can receive.  `tick` is the
`setInterval` callback (live exactly while `isRunning`); `foreground` is the
`AppState` background-to-active transition; the `press…` events are the
screen's buttons; `dismissCompletionModal` is the completion modal's
`onRequestClose`; `navigateAway` is unmounting the screen (back navigation),
whose only cleanup is clearing the interval. -/
inductive Ev where
  | tick (now : ℕ)
  | foreground (now : ℕ)
  | pressPause
  | pressResume (now : ℕ)
  | pressReset
  | pressTerminate (now : ℕ)
  | dismissCompletionModal
  | navigateAway
deriving Repr, DecidableEq

/-- One transition of the `TimerScreen` model.  Button presses are guarded by
`¬ showCompletionModal` (a visible modal blocks touches on the screen
underneath) and everything is guarded by `mounted`.  Each branch transcribes
the corresponding handler in `src/screens/TimerScreen.tsx`:

* `tick` — the interval body (lines 85–108): recompute
  `elapsed`/`remaining` from `startTime`; when `remaining ≤ 0` run
  `handleTimerComplete` (append a full session with `startAt = isoNow()`,
  `durationSeconds = targetSeconds`, `isPartial = false`, show the
  completion modal) and set `isRunning := false`, `remainingSeconds := 0`,
  `elapsedSeconds := targetSeconds`.
* `foreground` — `handleAppStateChange` (lines 124–141): when running with a
  start time, store the recomputed `elapsed`/`remaining` unclamped.
* `pressResume` — `handleResume` (lines 147–154):
  `startTime := now - (targetSeconds - remainingSeconds) * 1000`.
* `pressPause` — `handlePause`; `pressReset` — `handleReset`.
* `pressTerminate` — `handleTerminate` (lines 198–224): when
  `elapsedSeconds = 0` just `goBack`; otherwise append a partial session
  with `durationSeconds = elapsedSeconds` and `goBack`. -/
def step (cfg : Cfg) (m : AppModel) (e : Ev) : AppModel :=
  if ¬ m.mounted then m else
  match e with
  | .tick now =>
    if m.timer.isRunning then
      let elapsed := match m.timer.startTime with
        | some st => elapsedAt st now
        | none => 0
      let remaining := m.timer.targetSeconds - elapsed
      if remaining = 0 then
        { m with
          timer := { m.timer with
            isRunning := false
            remainingSeconds := 0
            elapsedSeconds := m.timer.targetSeconds }
          sessions := m.sessions ++
            [{ id := m.nextId
               courseId := cfg.courseId
               startAt := now
               durationSeconds := m.timer.targetSeconds
               targetSeconds := m.timer.targetSeconds
               isPartial := false }]
          nextId := m.nextId + 1
          showCompletionModal := true }
      else
        { m with
          timer := { m.timer with
            remainingSeconds := remaining
            elapsedSeconds := elapsed } }
    else m
  | .foreground now =>
    if m.timer.isRunning then
      match m.timer.startTime with
      | some st =>
        let elapsed := elapsedAt st now
        let remaining := m.timer.targetSeconds - elapsed
        { m with
          timer := { m.timer with
            remainingSeconds := remaining
            elapsedSeconds := elapsed } }
      | none => m
    else m
  | .pressPause =>
    if m.showCompletionModal then m
    else if m.timer.isRunning then
      { m with timer := { m.timer with isRunning := false } }
    else m
  | .pressResume now =>
    if m.showCompletionModal then m
    else if m.timer.isRunning then m
    else
      { m with
        timer := { m.timer with
          isRunning := true
          startTime :=
            some (now - (m.timer.targetSeconds - m.timer.remainingSeconds) * 1000) } }
  | .pressReset =>
    if m.showCompletionModal then m
    else
      { m with
        timer :=
          { isRunning := false
            remainingSeconds := minutesToSeconds cfg.durationMinutes
            elapsedSeconds := 0
            targetSeconds := minutesToSeconds cfg.durationMinutes
            startTime := none } }
  | .pressTerminate now =>
    if m.showCompletionModal then m
    else if m.timer.elapsedSeconds = 0 then
      { m with mounted := false }
    else
      { m with
        sessions := m.sessions ++
          [{ id := m.nextId
             courseId := cfg.courseId
             startAt := now
             durationSeconds := m.timer.elapsedSeconds
             targetSeconds := m.timer.targetSeconds
             isPartial := true }]
        nextId := m.nextId + 1
        mounted := false }
  | .dismissCompletionModal =>
    { m with showCompletionModal := false }
  | .navigateAway =>
    { m with mounted := false }

/-- Run the model over a list of events. -/
def run (cfg : Cfg) (m : AppModel) (es : List Ev) : AppModel :=
  es.foldl (step cfg) m

/-- A one-minute run on course `0`, used for concrete traces. -/
def cfg0 : Cfg := { courseId := 0, durationMinutes := 1 }

/-- C1: the invariant `0 ≤ durationSeconds ≤ targetSeconds` fails on the
code.  Start a 60-second run at `t = 0`, background the app past the target,
foreground at `t = 100000` ms (`handleAppStateChange` stores
`elapsedSeconds = 100` with no clamp and no completion), then press
Terminate before the next tick: `handleTerminate` persists a partial
session with `durationSeconds = 100 > 60 = targetSeconds`. -/
theorem c1_duration_invariant_violation :
    ((run cfg0 (initModel cfg0 0) [Ev.foreground 100000, Ev.pressTerminate 100500]).sessions.map
        (fun s => (s.durationSeconds, s.targetSeconds, s.isPartial))
      = [(100, 60, true)])
    ∧ ¬ (100 ≤ 60) := by
  constructor
  · rfl
  · decide

/-- C3: a user-initiated termination can persist a partial session whose
`durationSeconds` is not strictly below `targetSeconds`.  Complete a
60-second run at `t = 60000` (one full session is persisted and the
completion modal shown), dismiss the modal with the back button
(`onRequestClose`), then press Terminate: `elapsedSeconds = 60 ≠ 0`, so
`handleTerminate` persists a second session with `isPartial = true` and
`durationSeconds = 60 = targetSeconds`. -/
theorem c3_terminate_duration_bound_violation :
    ((run cfg0 (initModel cfg0 0)
          [Ev.tick 60000, Ev.dismissCompletionModal, Ev.pressTerminate 61000]).sessions.map
        (fun s => (s.durationSeconds, s.targetSeconds, s.isPartial))
      = [(60, 60, false), (60, 60, true)])
    ∧ ¬ (60 < 60) := by
  constructor
  · rfl
  · decide

/-- C4: completion is not fire-once across user actions.  Complete a
60-second run at `t = 60000`, dismiss the completion modal, press Resume at
`t = 100000` (`handleResume` sets `startTime = 100000 - 60 * 1000 = 40000`
because `remainingSeconds = 0`), and let one tick fire at `t = 101000`: the
tick recomputes `elapsed = 61 ≥ 60`, fires `handleTimerComplete` a second
time, and a second full session is persisted for the same run. -/
theorem c4_completion_refires_after_resume :
    ((run cfg0 (initModel cfg0 0)
          [Ev.tick 60000, Ev.dismissCompletionModal, Ev.pressResume 100000,
           Ev.tick 101000]).sessions.map
        (fun s => (s.durationSeconds, s.targetSeconds, s.isPartial))
      = [(60, 60, false), (60, 60, false)])
    ∧ ((run cfg0 (initModel cfg0 0)
          [Ev.tick 60000, Ev.dismissCompletionModal, Ev.pressResume 100000,
           Ev.tick 101000]).sessions.length = 2) := by
  constructor
  · rfl
  · rfl

/-- C6 counterexample: navigating away mid-run with `elapsedSeconds > 0`
persists nothing.  Run for five seconds (one tick at `t = 5000`, so
`elapsedSeconds = 5 > 0`), then navigate away: the unmount cleanup only
clears the interval, and the session list stays empty — there is no
last-chance flush. -/
theorem c6_no_flush_counterexample :
    ((run cfg0 (initModel cfg0 0) [Ev.tick 5000]).timer.elapsedSeconds = 5)
    ∧ ((run cfg0 (initModel cfg0 0) [Ev.tick 5000, Ev.navigateAway]).sessions = [])
    ∧ ¬ ((run cfg0 (initModel cfg0 0) [Ev.tick 5000, Ev.navigateAway]).sessions.length = 1) := by
  refine ⟨rfl, rfl, ?_⟩
  decide

/-- C6 (amended): navigating away from the timer screen never persists
anything — the unmount cleanup of the tick effect only clears the interval,
so the session list is unchanged and the in-memory run is simply destroyed;
a partial record is written only by an explicit Terminate. -/
theorem c6_navigate_away_no_persist (cfg : Cfg) (m : AppModel) :
    (step cfg m Ev.navigateAway).sessions = m.sessions
    ∧ (step cfg m Ev.navigateAway).mounted = false
    ∧ (step cfg m Ev.navigateAway).timer = m.timer := by
  by_cases h : m.mounted <;> simp [step, h]

/-- `Course` from `src/types/index.ts` (ids modelled as naturals, the
`createdAt` ISO string as epoch milliseconds). -/
structure Course where
  id : ℕ
  name : String
  createdAt : ℕ
  color : Option String
deriving Repr, DecidableEq

/-- `removeCourse` from `src/hooks/useStorage.tsx` (lines 132–148), as the
pure state transformer on the in-memory collections of its success path:
`courses.filter(course => course.id !== id)` and
`sessions.filter(session => session.courseId !== id)`. -/
def removeCourse (id : ℕ) (courses : List Course) (sessions : List Session) :
    List Course × List Session :=
  (courses.filter (fun course => course.id ≠ id),
   sessions.filter (fun session => session.courseId ≠ id))

/-- `Omit<Session, 'id'>` — the argument of `addSession`. -/
structure SessionData where
  courseId : ℕ
  startAt : ℕ
  durationSeconds : ℕ
  targetSeconds : ℕ
  isPartial : Bool
deriving Repr, DecidableEq

/-- Building the new `Session` inside `addSession`:
`{ id: uid('s_'), ...sessionData }`, with `uid` modelled by an explicit
fresh id. -/
def mkSession (freshId : ℕ) (d : SessionData) : Session :=
  { id := freshId
    courseId := d.courseId
    startAt := d.startAt
    durationSeconds := d.durationSeconds
    targetSeconds := d.targetSeconds
    isPartial := d.isPartial }

/-- The state `addSession` touches: the in-memory `sessions` React state, the
persisted `AsyncStorage` blob for the sessions key, and the hook's `error`
state. -/
structure StorageState where
  sessions : List Session
  disk : List Session
  error : Option String
deriving Repr, DecidableEq

/-- `addSession` from `src/hooks/useStorage.tsx` (lines 151–166).  The order
of effects is the source's: `setSessions(updatedSessions)` runs before
`await AsyncStorage.setItem(...)`.  The write outcome is modelled by
`writeOk`; a failed write leaves the disk unchanged, sets the hook's error
state (`setError('Failed to add session')`) and rethrows, modelled by the
`false` component of the result. -/
def addSession (writeOk : Bool) (st : StorageState) (d : SessionData) (freshId : ℕ) :
    StorageState × Bool :=
  let newSession := mkSession freshId d
  let updatedSessions := st.sessions ++ [newSession]
  if writeOk then
    ({ st with sessions := updatedSessions, disk := updatedSessions }, true)
  else
    ({ st with sessions := updatedSessions, error := some "Failed to add session" },
     false)

/-- C7: `removeCourse id` keeps exactly the sessions whose `courseId` differs
from `id` (order preserved), removes no other session, and preserves
referential integrity: if before the call every session referenced an
existing course, then after it no session references a non-existent course. -/
theorem c7_remove_course_cascade (id : ℕ) (courses : List Course) (sessions : List Session) :
    ((removeCourse id courses sessions).2
        = sessions.filter (fun session => session.courseId ≠ id))
    ∧ (∀ s : Session, s ∈ (removeCourse id courses sessions).2
        ↔ s ∈ sessions ∧ s.courseId ≠ id)
    ∧ ((∀ s ∈ sessions, ∃ c ∈ courses, c.id = s.courseId)
        → ∀ s ∈ (removeCourse id courses sessions).2,
            ∃ c ∈ (removeCourse id courses sessions).1, c.id = s.courseId) := by
  refine ⟨rfl, ?_, ?_⟩
  · intro s
    simp [removeCourse]
  · intro href s hs
    rcases (List.mem_filter.mp hs) with ⟨hmem, hne⟩
    rcases href s hmem with ⟨c, hc, hcid⟩
    refine ⟨c, ?_, hcid⟩
    refine List.mem_filter.mpr ⟨hc, ?_⟩
    simp only [decide_eq_true_eq] at hne ⊢
    rw [hcid]
    exact hne

/-- C7 witness: deleting course `1` from a store with courses `1`, `2` and
sessions on both removes exactly the sessions of course `1`, and the
survivors still reference an existing course. -/
theorem c7_remove_course_cascade_witness :
    ∀ s ∈ (removeCourse 1
        [⟨1, "a", 0, none⟩, ⟨2, "b", 0, none⟩]
        [⟨0, 1, 10, 5, 60, true⟩, ⟨1, 2, 20, 60, 60, false⟩]).2,
      ∃ c ∈ (removeCourse 1
        [⟨1, "a", 0, none⟩, ⟨2, "b", 0, none⟩]
        [⟨0, 1, 10, 5, 60, true⟩, ⟨1, 2, 20, 60, 60, false⟩]).1, c.id = s.courseId :=
  (c7_remove_course_cascade 1
      [⟨1, "a", 0, none⟩, ⟨2, "b", 0, none⟩]
      [⟨0, 1, 10, 5, 60, true⟩, ⟨1, 2, 20, 60, 60, false⟩]).2.2
    (by decide)

/-- C10: `addSession` mutates the in-memory list before awaiting the write.
On a failed write the error is rethrown (`false` result) and the hook error
state is set, the persisted blob is unchanged, but the in-memory list
already holds the new record; a caller retry (whether it fails or succeeds)
appends a second in-memory copy of the same session data. -/
theorem c10_add_session_not_atomic (st : StorageState) (d : SessionData) (id1 id2 : ℕ) :
    ((addSession false st d id1).2 = false)
    ∧ ((addSession false st d id1).1.sessions = st.sessions ++ [mkSession id1 d])
    ∧ ((addSession false st d id1).1.disk = st.disk)
    ∧ ((addSession false st d id1).1.error = some "Failed to add session")
    ∧ ((addSession false (addSession false st d id1).1 d id2).1.sessions
        = st.sessions ++ [mkSession id1 d, mkSession id2 d])
    ∧ ((addSession true (addSession false st d id1).1 d id2).1.sessions
        = st.sessions ++ [mkSession id1 d, mkSession id2 d]) := by
  refine ⟨rfl, rfl, rfl, rfl, ?_, ?_⟩ <;> simp [addSession]

/-- `handleCustomTimeSubmit` from `src/screens/TimerScreen.tsx`
(lines 254–270).  `parseInt(customTimeInput)` is modelled as an
`Option ℕ` (`none` for `NaN`, e.g. the empty input; the numeric keyboard
with `maxLength 3` yields digit strings).  `NaN > 0` is `false` in JS, so
the `none` case falls into the rejection branch.  On acceptance the timer is
restarted with the custom duration; on rejection only an alert is shown and
the timer state is untouched. -/
def handleCustomTimeSubmit (customMinutes : Option ℕ) (s : TimerState) (now : ℕ) :
    TimerState × Bool :=
  match customMinutes with
  | some m =>
    if 0 < m ∧ m ≤ 480 then
      ({ isRunning := true
         remainingSeconds := minutesToSeconds m
         elapsedSeconds := 0
         targetSeconds := minutesToSeconds m
         startTime := some now }, true)
    else (s, false)
  | none => (s, false)

/-- The custom-duration Start button of `CourseScreen`
(`src/unnamed/part_004`, lines 452–468):
`if (customDuration && parseInt(customDuration) > 0 && parseInt(customDuration) <= 480)`
navigate to `TimerScreen` with `durationMinutes = parseInt(customDuration)`,
else alert.  The empty input (falsy `customDuration`) and `NaN` are both
`none`; the result is the `durationMinutes` the navigation carries, or
`none` when rejected. -/
def courseCustomStart (customDuration : Option ℕ) : Option ℕ :=
  match customDuration with
  | some m => if 0 < m ∧ m ≤ 480 then some m else none
  | none => none

/-- C8: a requested custom duration starts a timer run iff it parses to an
integer between 1 and 480 minutes inclusive, on both entry paths
(`TimerScreen.handleCustomTimeSubmit` and the `CourseScreen` custom Start
button); a rejected duration leaves the timer state exactly as it was (no
partial timer state), and an accepted one installs the complete fresh run
state for that duration. -/
theorem c8_duration_validation (input : Option ℕ) (s : TimerState) (now : ℕ) :
    ((handleCustomTimeSubmit input s now).2 = true
        ↔ ∃ m, input = some m ∧ 1 ≤ m ∧ m ≤ 480)
    ∧ ((handleCustomTimeSubmit input s now).2 = false
        → (handleCustomTimeSubmit input s now).1 = s)
    ∧ (∀ m, courseCustomStart input = some m
        ↔ input = some m ∧ 1 ≤ m ∧ m ≤ 480)
    ∧ (∀ m, input = some m → 1 ≤ m → m ≤ 480
        → (handleCustomTimeSubmit input s now).1
            = { isRunning := true
                remainingSeconds := minutesToSeconds m
                elapsedSeconds := 0
                targetSeconds := minutesToSeconds m
                startTime := some now }) := by
  refine ⟨?_, ?_, ?_, ?_⟩
  · cases input with
    | none =>
      constructor
      · intro ht
        exact absurd ht (by simp [handleCustomTimeSubmit])
      · rintro ⟨m, hm, -, -⟩
        cases hm
    | some m =>
      simp only [handleCustomTimeSubmit]
      split_ifs with h
      · exact ⟨fun _ => ⟨m, rfl, h.1, h.2⟩, fun _ => rfl⟩
      · constructor
        · intro ht
          exact absurd ht (by simp)
        · rintro ⟨k, hk, h1, h2⟩
          cases hk
          exact absurd ⟨h1, h2⟩ h
  · cases input with
    | none => intro _; rfl
    | some m =>
      simp only [handleCustomTimeSubmit]
      split_ifs with h
      · intro ht
        exact absurd ht (by simp)
      · intro _; rfl
  · intro k
    cases input with
    | none =>
      constructor
      · intro hk
        cases hk
      · rintro ⟨hk, -, -⟩
        cases hk
    | some m =>
      simp only [courseCustomStart]
      split_ifs with h
      · constructor
        · intro hk
          cases hk
          exact ⟨rfl, h.1, h.2⟩
        · rintro ⟨hk, -, -⟩
          cases hk
          rfl
      · constructor
        · intro hk
          cases hk
        · rintro ⟨hk, h1, h2⟩
          cases hk
          exact absurd ⟨h1, h2⟩ h
  · intro m hm h1 h2
    subst hm
    simp only [handleCustomTimeSubmit]
    rw [if_pos ⟨h1, h2⟩]

/-- C8 witness: the concrete input `25` is accepted on both paths and starts
the fresh 25-minute run, `481` is rejected leaving the state unchanged. -/
theorem c8_duration_validation_witness :
    ((handleCustomTimeSubmit (some 25)
        { isRunning := false, remainingSeconds := 0, elapsedSeconds := 0,
          targetSeconds := 0, startTime := none } 7).2 = true
      ↔ ∃ m, (some 25 : Option ℕ) = some m ∧ 1 ≤ m ∧ m ≤ 480)
    ∧ ((handleCustomTimeSubmit (some 481)
        { isRunning := false, remainingSeconds := 0, elapsedSeconds := 0,
          targetSeconds := 0, startTime := none } 7).2 = false
      → (handleCustomTimeSubmit (some 481)
        { isRunning := false, remainingSeconds := 0, elapsedSeconds := 0,
          targetSeconds := 0, startTime := none } 7).1
          = { isRunning := false, remainingSeconds := 0, elapsedSeconds := 0,
              targetSeconds := 0, startTime := none }) :=
  ⟨(c8_duration_validation (some 25)
      { isRunning := false, remainingSeconds := 0, elapsedSeconds := 0,
        targetSeconds := 0, startTime := none } 7).1,
   (c8_duration_validation (some 481)
      { isRunning := false, remainingSeconds := 0, elapsedSeconds := 0,
        targetSeconds := 0, startTime := none } 7).2.1⟩

/-- C5 counterexample: on the tick that completes the run, the stored
`elapsedSeconds` is clamped to `targetSeconds` and does not equal
`floor((now - startTime) / 1000)`.  Start a 60-second run at `t = 0` and
let the (suspended, late) tick fire at `t = 100000` ms while the timer is
running: the formula gives `100`, but the stored `elapsedSeconds` is `60`. -/
theorem c5_elapsed_clamped_counterexample :
    ((initModel cfg0 0).timer.isRunning = true)
    ∧ ((step cfg0 (initModel cfg0 0) (Ev.tick 100000)).timer.elapsedSeconds = 60)
    ∧ (elapsedAt 0 100000 = 100)
    ∧ (step cfg0 (initModel cfg0 0) (Ev.tick 100000)).timer.elapsedSeconds
        ≠ elapsedAt 0 100000 := by
  refine ⟨rfl, rfl, rfl, ?_⟩
  decide

/-- C5 (amended): every tick and every foreground-resume recomputes from the
absolute `startTime`.  While mounted, running, with `startTime = some st`:
the tick stores `elapsedSeconds = floor((now - st)/1000)` whenever it does
not complete the run, and clamps `elapsedSeconds` to `targetSeconds` on the
completing tick; in every case the stored `remainingSeconds` equals
`max(0, targetSeconds - floor((now - st)/1000))`, and the foreground
reconciliation stores both formulas unclamped.  Since that value depends
only on `targetSeconds`, `st` and `now`, the first recomputation after an
arbitrary suspension equals the continuous-tick value — independent of how
many ticks actually fired, as the final conjunct states for any two states
with the same target and start time. -/
theorem c5_recompute_from_absolute_time (cfg : Cfg) (m : AppModel) (st now : ℕ)
    (hmt : m.mounted = true) (hrun : m.timer.isRunning = true)
    (hst : m.timer.startTime = some st) :
    ((step cfg m (Ev.tick now)).timer.remainingSeconds
        = remainingAt m.timer.targetSeconds st now)
    ∧ (remainingAt m.timer.targetSeconds st now ≠ 0
        → (step cfg m (Ev.tick now)).timer.elapsedSeconds = elapsedAt st now)
    ∧ (remainingAt m.timer.targetSeconds st now = 0
        → (step cfg m (Ev.tick now)).timer.elapsedSeconds = m.timer.targetSeconds)
    ∧ ((step cfg m (Ev.foreground now)).timer.elapsedSeconds = elapsedAt st now)
    ∧ ((step cfg m (Ev.foreground now)).timer.remainingSeconds
        = remainingAt m.timer.targetSeconds st now)
    ∧ (∀ m2 : AppModel, m2.mounted = true → m2.timer.isRunning = true
        → m2.timer.startTime = some st
        → m2.timer.targetSeconds = m.timer.targetSeconds
        → (step cfg m2 (Ev.tick now)).timer.remainingSeconds
            = (step cfg m (Ev.tick now)).timer.remainingSeconds) := by
  have tick_rem : ∀ m2 : AppModel, m2.mounted = true → m2.timer.isRunning = true
      → m2.timer.startTime = some st
      → (step cfg m2 (Ev.tick now)).timer.remainingSeconds
          = remainingAt m2.timer.targetSeconds st now := by
    intro m2 h1 h2 h3
    simp only [step, h1, h2, h3, not_true, if_false, remainingAt]
    by_cases h : m2.timer.targetSeconds - elapsedAt st now = 0
    · simp [h]
    · simp [h]
  have tick_el : (remainingAt m.timer.targetSeconds st now ≠ 0
      → (step cfg m (Ev.tick now)).timer.elapsedSeconds = elapsedAt st now) := by
    intro h
    simp only [remainingAt] at h
    simp only [step, hmt, hrun, hst, not_true, if_false]
    simp [h]
  have tick_el0 : (remainingAt m.timer.targetSeconds st now = 0
      → (step cfg m (Ev.tick now)).timer.elapsedSeconds = m.timer.targetSeconds) := by
    intro h
    simp only [remainingAt] at h
    simp only [step, hmt, hrun, hst, not_true, if_false]
    simp [h]
  have fg : (step cfg m (Ev.foreground now)).timer.elapsedSeconds = elapsedAt st now
      ∧ (step cfg m (Ev.foreground now)).timer.remainingSeconds
          = remainingAt m.timer.targetSeconds st now := by
    simp only [step, hmt, hrun, hst, not_true, if_false]
    simp [remainingAt]
  refine ⟨tick_rem m hmt hrun hst, tick_el, tick_el0, fg.1, fg.2, ?_⟩
  intro m2 h1 h2 h3 h4
  rw [tick_rem m2 h1 h2 h3, tick_rem m hmt hrun hst, h4]

/-- C5 witness: instantiating the amended statement on a fresh one-minute run
at `t0 = 0` with a tick at `t = 1000`: the stored fields equal
`floor((1000 - 0)/1000) = 1` and `60 - 1 = 59`. -/
theorem c5_recompute_from_absolute_time_witness :
    (step cfg0 (initModel cfg0 0) (Ev.tick 1000)).timer.remainingSeconds
      = remainingAt (initModel cfg0 0).timer.targetSeconds 0 1000
    ∧ (step cfg0 (initModel cfg0 0) (Ev.tick 1000)).timer.elapsedSeconds
      = elapsedAt 0 1000 :=
  ⟨(c5_recompute_from_absolute_time cfg0 (initModel cfg0 0) 0 1000 rfl rfl rfl).1,
   (c5_recompute_from_absolute_time cfg0 (initModel cfg0 0) 0 1000 rfl rfl rfl).2.1
     (by decide)⟩

/-- The state of a freshly started, still-recordless run: mounted, running,
original start time and target, no persisted session, no modal.  This is the
invariant a non-completing tick preserves. -/
def RunningFresh (cfg : Cfg) (t0 : ℕ) (m : AppModel) : Prop :=
  m.mounted = true
  ∧ m.timer.isRunning = true
  ∧ m.timer.startTime = some t0
  ∧ m.timer.targetSeconds = minutesToSeconds cfg.durationMinutes
  ∧ m.sessions = []
  ∧ m.nextId = 0
  ∧ m.showCompletionModal = false

theorem initModel_runningFresh (cfg : Cfg) (t0 : ℕ) :
    RunningFresh cfg t0 (initModel cfg t0) := by
  refine ⟨rfl, rfl, rfl, rfl, rfl, rfl, rfl⟩

theorem tick_preserves_runningFresh {cfg : Cfg} {t0 : ℕ} {m : AppModel} (n : ℕ)
    (h : RunningFresh cfg t0 m)
    (hn : remainingAt (minutesToSeconds cfg.durationMinutes) t0 n ≠ 0) :
    RunningFresh cfg t0 (step cfg m (Ev.tick n)) := by
  obtain ⟨h1, h2, h3, h4, h5, h6, h7⟩ := h
  rw [remainingAt, ← h4] at hn
  simp only [step, h1, h2, h3, not_true, if_false]
  simp only [hn, if_false, ite_false, if_true, ite_true]
  exact ⟨rfl, rfl, rfl, h4, h5, h6, h7⟩

theorem tick_completes_runningFresh {cfg : Cfg} {t0 : ℕ} {m : AppModel} (n : ℕ)
    (h : RunningFresh cfg t0 m)
    (hn : remainingAt (minutesToSeconds cfg.durationMinutes) t0 n = 0) :
    (step cfg m (Ev.tick n)).sessions
      = [{ id := 0
           courseId := cfg.courseId
           startAt := n
           durationSeconds := minutesToSeconds cfg.durationMinutes
           targetSeconds := minutesToSeconds cfg.durationMinutes
           isPartial := false }]
    ∧ (step cfg m (Ev.tick n)).timer.isRunning = false := by
  obtain ⟨h1, h2, h3, h4, h5, h6, h7⟩ := h
  rw [remainingAt, ← h4] at hn
  simp only [step, h1, h2, h3, not_true, if_false]
  simp only [hn, if_true, ite_true]
  simp [h4, h5, h6]

theorem tick_stopped {cfg : Cfg} {m : AppModel} (n : ℕ)
    (h : m.timer.isRunning = false) :
    step cfg m (Ev.tick n) = m := by
  by_cases hm : m.mounted
  · simp [step, hm, h]
  · simp [step, hm]

theorem run_ticks_stopped {cfg : Cfg} {m : AppModel} (ns : List ℕ)
    (h : m.timer.isRunning = false) :
    run cfg m (ns.map Ev.tick) = m := by
  induction ns with
  | nil => rfl
  | cons n rest ih =>
    show run cfg (step cfg m (Ev.tick n)) (rest.map Ev.tick) = m
    rw [tick_stopped n h, ih]

theorem run_ticks_fresh_complete (cfg : Cfg) (t0 : ℕ) :
    ∀ (ns : List ℕ) (m : AppModel), RunningFresh cfg t0 m
    → (∃ n ∈ ns, remainingAt (minutesToSeconds cfg.durationMinutes) t0 n = 0)
    → ∃ pre n post, ns = pre ++ n :: post
        ∧ (∀ k ∈ pre, remainingAt (minutesToSeconds cfg.durationMinutes) t0 k ≠ 0)
        ∧ remainingAt (minutesToSeconds cfg.durationMinutes) t0 n = 0
        ∧ (run cfg m (ns.map Ev.tick)).sessions
            = [{ id := 0
                 courseId := cfg.courseId
                 startAt := n
                 durationSeconds := minutesToSeconds cfg.durationMinutes
                 targetSeconds := minutesToSeconds cfg.durationMinutes
                 isPartial := false }] := by
  intro ns
  induction ns with
  | nil =>
    intro m _ hex
    simp at hex
  | cons n rest ih =>
    intro m hfresh hex
    by_cases h : remainingAt (minutesToSeconds cfg.durationMinutes) t0 n = 0
    · refine ⟨[], n, rest, rfl, by simp, h, ?_⟩
      obtain ⟨hsess, hstop⟩ := tick_completes_runningFresh n hfresh h
      show (run cfg (step cfg m (Ev.tick n)) (rest.map Ev.tick)).sessions = _
      rw [run_ticks_stopped rest hstop, hsess]
    · have hfresh2 := tick_preserves_runningFresh n hfresh h
      have hex2 : ∃ k ∈ rest,
          remainingAt (minutesToSeconds cfg.durationMinutes) t0 k = 0 := by
        rcases hex with ⟨k, hk, hk0⟩
        rcases List.mem_cons.mp hk with rfl | hk
        · exact absurd hk0 h
        · exact ⟨k, hk, hk0⟩
      rcases ih (step cfg m (Ev.tick n)) hfresh2 hex2 with
        ⟨pre, k, post, hsplit, hpre, hk0, hrun⟩
      refine ⟨n :: pre, k, post, by rw [hsplit, List.cons_append], ?_, hk0, hrun⟩
      intro j hj
      rcases List.mem_cons.mp hj with rfl | hj
      · exact h
      · exact hpre j hj

/-- C2 counterexample: a run that reaches natural completion does not always
persist exactly one Session.  A 60-second run completes at `t = 60000` ms
(natural completion: the tick observes `remainingSeconds = 0` while
running, and one full session is persisted); the user then dismisses the
completion modal via `onRequestClose` and presses Terminate at
`t = 62000` ms: `handleTerminate` sees `elapsedSeconds = 60 ≠ 0` and
persists a second record, so this completed run persists two Sessions, not
one. -/
theorem c2_two_sessions_after_completion_counterexample :
    ((run cfg0 (initModel cfg0 0) [Ev.tick 60000]).sessions.map
        (fun s => (s.durationSeconds, s.targetSeconds, s.isPartial))
      = [(60, 60, false)])
    ∧ ((run cfg0 (initModel cfg0 0)
          [Ev.tick 60000, Ev.dismissCompletionModal, Ev.pressTerminate 62000]).sessions.map
        (fun s => (s.durationSeconds, s.targetSeconds, s.isPartial))
      = [(60, 60, false), (60, 60, true)])
    ∧ ¬ ((run cfg0 (initModel cfg0 0)
          [Ev.tick 60000, Ev.dismissCompletionModal, Ev.pressTerminate 62000]).sessions.length
        = 1) := by
  refine ⟨rfl, rfl, ?_⟩
  decide

/-- C2 (amended): a timer run that reaches natural completion and receives no
user interaction afterwards persists exactly one Session, a full one.  For
any fresh run (mounted at `t0`) driven by tick events alone, if some tick
observes `remainingSeconds = 0` (elapsed wall time has reached the target),
then the final persisted collection is exactly one record:
`isPartial = false`, `durationSeconds = targetSeconds`, and `startAt` equal
to the time of the completing tick — the first tick whose recomputed
remaining time is zero.  (After completion, Terminate or Resume — both
reachable once the completion modal is dismissed — can persist further
records for the same run; see the counterexample above.) -/
theorem c2_completion_persists_one_full_session (cfg : Cfg) (t0 : ℕ) (ns : List ℕ)
    (hex : ∃ n ∈ ns, remainingAt (minutesToSeconds cfg.durationMinutes) t0 n = 0) :
    ∃ pre n post, ns = pre ++ n :: post
      ∧ (∀ k ∈ pre, remainingAt (minutesToSeconds cfg.durationMinutes) t0 k ≠ 0)
      ∧ remainingAt (minutesToSeconds cfg.durationMinutes) t0 n = 0
      ∧ (run cfg (initModel cfg t0) (ns.map Ev.tick)).sessions
          = [{ id := 0
               courseId := cfg.courseId
               startAt := n
               durationSeconds := minutesToSeconds cfg.durationMinutes
               targetSeconds := minutesToSeconds cfg.durationMinutes
               isPartial := false }] :=
  run_ticks_fresh_complete cfg t0 ns (initModel cfg t0)
    (initModel_runningFresh cfg t0) hex

/-- C2 witness: a one-minute run started at `t0 = 0` with ticks at 1 s, 60 s
and 61 s persists exactly the single full session recorded at the 60-second
tick. -/
theorem c2_completion_persists_one_full_session_witness :
    ∃ pre n post, ([1000, 60000, 61000] : List ℕ) = pre ++ n :: post
      ∧ (∀ k ∈ pre, remainingAt (minutesToSeconds cfg0.durationMinutes) 0 k ≠ 0)
      ∧ remainingAt (minutesToSeconds cfg0.durationMinutes) 0 n = 0
      ∧ (run cfg0 (initModel cfg0 0) (([1000, 60000, 61000] : List ℕ).map Ev.tick)).sessions
          = [{ id := 0
               courseId := cfg0.courseId
               startAt := n
               durationSeconds := minutesToSeconds cfg0.durationMinutes
               targetSeconds := minutesToSeconds cfg0.durationMinutes
               isPartial := false }] :=
  c2_completion_persists_one_full_session cfg0 0 [1000, 60000, 61000] (by decide)

/-- The loop body of `calculateStreak` (`src/unnamed/part_002`,
lines 166–176): starting at index `i` with `uniqueDates.length - i` fuel,
count consecutive indices whose day `today - i` is in `uniqueDates`,
stopping at the first miss.  Calendar dates are integer day indices, so
`expectedDate.setDate(expectedDate.getDate() - i)` is `today - i`. -/
def streakGo (uniqueDates : List ℤ) (today : ℤ) : ℕ → ℕ → ℕ
  | _, 0 => 0
  | i, fuel + 1 =>
    if (today - (i : ℤ)) ∈ uniqueDates then streakGo uniqueDates today (i + 1) fuel + 1
    else 0

/-- `calculateStreak` from `src/unnamed/part_002` (`lib/utils.ts`,
lines 156–179): return `0` for no sessions; otherwise deduplicate the
session dates (`[...new Set(sessionDates)].sort()` — the sort is irrelevant,
the loop only tests membership) and run the counting loop for
`i = 0 … uniqueDates.length - 1`.  `sessionDates` is the list of calendar
days (`s.startAt.split('T')[0]`) of the sessions, as integer day indices. -/
def calculateStreak (today : ℤ) (sessionDates : List ℤ) : ℕ :=
  if sessionDates = [] then 0
  else
    let uniqueDates := sessionDates.dedup
    streakGo uniqueDates today 0 uniqueDates.length

theorem streakGo_le (u : List ℤ) (today : ℤ) :
    ∀ (fuel i : ℕ), streakGo u today i fuel ≤ fuel := by
  intro fuel
  induction fuel with
  | zero => intro i; simp [streakGo]
  | succ fuel ih =>
    intro i
    simp only [streakGo]
    split_ifs with h
    · exact Nat.succ_le_succ (ih (i + 1))
    · exact Nat.zero_le _

theorem streakGo_mem (u : List ℤ) (today : ℤ) :
    ∀ (fuel i j : ℕ), j < streakGo u today i fuel
      → (today - ((i + j : ℕ) : ℤ)) ∈ u := by
  intro fuel
  induction fuel with
  | zero =>
    intro i j hj
    simp [streakGo] at hj
  | succ fuel ih =>
    intro i j hj
    simp only [streakGo] at hj
    by_cases h : (today - (i : ℤ)) ∈ u
    · rw [if_pos h] at hj
      cases j with
      | zero => simpa using h
      | succ j2 =>
        have h2 := ih (i + 1) j2 (by omega)
        have heq : (i + (j2 + 1) : ℕ) = ((i + 1) + j2 : ℕ) := by omega
        rw [heq]
        exact h2
    · rw [if_neg h] at hj
      omega

theorem streakGo_stop (u : List ℤ) (today : ℤ) :
    ∀ (fuel i : ℕ), streakGo u today i fuel < fuel
      → (today - ((i + streakGo u today i fuel : ℕ) : ℤ)) ∉ u := by
  intro fuel
  induction fuel with
  | zero =>
    intro i h
    simp [streakGo] at h
  | succ fuel ih =>
    intro i h
    simp only [streakGo] at h ⊢
    by_cases hm : (today - (i : ℤ)) ∈ u
    · rw [if_pos hm] at h ⊢
      have h2 := ih (i + 1) (by omega)
      have heq : (i + (streakGo u today (i + 1) fuel + 1) : ℕ)
          = ((i + 1) + streakGo u today (i + 1) fuel : ℕ) := by omega
      rw [heq]
      exact h2
    · rw [if_neg hm] at h ⊢
      simpa using hm

/-- Pigeonhole: when a duplicate-free date list of length `n` contains all of
`today, today - 1, …, today - (n-1)`, it cannot also contain `today - n`. -/
theorem notMem_sub_length_of_all_mem (u : List ℤ) (today : ℤ) (hnodup : u.Nodup)
    (hall : ∀ j : ℕ, j < u.length → (today - (j : ℤ)) ∈ u) :
    (today - (u.length : ℤ)) ∉ u := by
  intro hmem
  have hLnd : ((List.range u.length).map (fun j : ℕ => today - (j : ℤ))).Nodup := by
    refine List.Nodup.map ?_ (List.nodup_range u.length)
    intro a b hab
    have hab2 : today - (a : ℤ) = today - (b : ℤ) := hab
    omega
  have hLsub : ∀ x ∈ (List.range u.length).map (fun j : ℕ => today - (j : ℤ)), x ∈ u := by
    intro x hx
    rcases List.mem_map.mp hx with ⟨j, hj, rfl⟩
    exact hall j (List.mem_range.mp hj)
  have hfin : ((List.range u.length).map (fun j : ℕ => today - (j : ℤ))).toFinset
      = u.toFinset := by
    apply Finset.eq_of_subset_of_card_le
    · intro x hx
      exact List.mem_toFinset.mpr (hLsub x (List.mem_toFinset.mp hx))
    · rw [List.toFinset_card_of_nodup hnodup, List.toFinset_card_of_nodup hLnd]
      simp
  have hmemL : (today - (u.length : ℤ))
      ∈ (List.range u.length).map (fun j : ℕ => today - (j : ℤ)) := by
    have h1 := List.mem_toFinset.mpr hmem
    rw [← hfin] at h1
    exact List.mem_toFinset.mp h1
  rcases List.mem_map.mp hmemL with ⟨j, hj, hje⟩
  have hjn : j = u.length := by omega
  exact absurd (List.mem_range.mp hj) (by omega)

/-- C9: `calculateStreak` returns the number of consecutive calendar days,
counting backward from today, each holding at least one session date: every
day `today - j` for `j` below the result is in the session-date list, and
day `today - result` is not — the loop stops at the first missing day.  In
particular `streak [] = 0`, a session today alone gives `1`, sessions today
and yesterday (none two days ago) give `2`, and a session yesterday only
gives `0`. -/
theorem c9_streak_correct :
    (∀ (today : ℤ) (ds : List ℤ),
        (∀ j : ℕ, j < calculateStreak today ds → (today - (j : ℤ)) ∈ ds)
        ∧ (today - (calculateStreak today ds : ℤ)) ∉ ds)
    ∧ calculateStreak 800 [] = 0
    ∧ calculateStreak 800 [800] = 1
    ∧ calculateStreak 800 [800, 799] = 2
    ∧ calculateStreak 800 [799] = 0 := by
  refine ⟨?_, by decide, by decide, by decide, by decide⟩
  intro today ds
  by_cases hds : ds = []
  · subst hds
    constructor
    · intro j hj
      simp [calculateStreak] at hj
    · simp [calculateStreak]
  · have hcalc : calculateStreak today ds
        = streakGo ds.dedup today 0 ds.dedup.length := by
      simp [calculateStreak, hds]
    constructor
    · intro j hj
      rw [hcalc] at hj
      have h1 := streakGo_mem ds.dedup today ds.dedup.length 0 j hj
      rw [List.mem_dedup] at h1
      simpa using h1
    · rw [hcalc]
      intro hmem
      rw [← List.mem_dedup] at hmem
      rcases Nat.lt_or_ge (streakGo ds.dedup today 0 ds.dedup.length)
          ds.dedup.length with h | h
      · have h2 := streakGo_stop ds.dedup today ds.dedup.length 0 h
        apply h2
        simpa using hmem
      · have hr : streakGo ds.dedup today 0 ds.dedup.length = ds.dedup.length :=
          Nat.le_antisymm (streakGo_le ds.dedup today ds.dedup.length 0) h
        have hall : ∀ j : ℕ, j < ds.dedup.length → (today - (j : ℤ)) ∈ ds.dedup := by
          intro j hj
          have h3 := streakGo_mem ds.dedup today ds.dedup.length 0 j (by rw [hr]; exact hj)
          simpa using h3
        have hno := notMem_sub_length_of_all_mem ds.dedup today ds.nodup_dedup hall
        rw [hr] at hmem
        exact hno hmem

/-- C9 witness: with today = day 800 and sessions on days 800 and 799,
`today - 1` is covered by the streak and `today - streak` (day 798) has no
session. -/
theorem c9_streak_correct_witness :
    ((800 : ℤ) - ((1 : ℕ) : ℤ)) ∈ ([800, 799] : List ℤ)
    ∧ ((800 : ℤ) - (calculateStreak 800 [800, 799] : ℤ)) ∉ ([800, 799] : List ℤ) :=
  ⟨(c9_streak_correct.1 800 [800, 799]).1 1 (by decide),
   (c9_streak_correct.1 800 [800, 799]).2⟩

end TimeTracker
